import Mathlib

/-!
# Definition Template Resolution & Validation Engine — verification development

Shallow embedding of the CUE-based definition rendering pipeline of the
kubevela repository: the nested composition processor
(`processComposition`, `definition/compose`), the trait lifecycle
(`traitDef.Complete`, `definition/template`), the validation-error
formatter (`formatCueValidationErrors`), the config/data reference
resolvers (`getConfigFromCueVal`, `getDataFromCue`,
`pkg/cue/render`), and the custom-fields layer assembler
(`ComponentRenderEngine.GetFields`).

CUE documents are modelled as finite trees (`CVal`); the non-existent /
error value returned by `cue.Value.LookupPath` on a missing path is the
distinguished constructor `CVal.bottom`, so lookups chain exactly as in
the `cue.Value` API (`Exists()` is false on `bottom`, a lookup on
`bottom` is `bottom`).  `value.FieldPath(segs...)` of the workflow
library joins its segments with "." and parses the result as a dotted
CUE path (witnessed in the source by calls such as
`value.FieldPath("$config."+configKey+".output")` that rely on dots
inside one segment acting as separators); `fieldPath` mirrors that.

External collaborators (the config reader, provider registry functions,
the diagnostic-enrichment rewriters) are taken as parameters, so every
theorem about the repository's own control flow is proved for all
behaviours of those collaborators.
-/

namespace KubeVela

/-- A compiled CUE value tree.  `bottom` models the zero/error
`cue.Value` (returned by lookups on missing paths): `Exists()` is false
on it and all lookups through it stay `bottom`.  Struct fields carry a
canonical field order, matching CUE's stable field iteration order. -/
inductive CVal where
  | bottom : CVal
  | null : CVal
  | str : String → CVal
  | int : Int → CVal
  | bool : Bool → CVal
  | struct : List (String × CVal) → CVal
  | list : List CVal → CVal
deriving Repr, Inhabited

/-- `cue.Value.Exists()`: false exactly on the non-existent value. -/
def CVal.Exists : CVal → Bool
  | .bottom => false
  | _ => true

/-- First field with the given label (struct fields of compiled CUE
documents have pairwise distinct labels). -/
def findField : List (String × CVal) → String → CVal
  | [], _ => .bottom
  | (k, v) :: rest, key => if k = key then v else findField rest key

/-- Whether the field list carries the given label. -/
def hasKey : List (String × CVal) → String → Bool
  | [], _ => false
  | (k, _) :: rest, key => k = key || hasKey rest key

/-- One-step `LookupPath`: selecting a label of a non-struct (or of the
non-existent value) yields the non-existent value, as in cue. -/
def CVal.lookupField : CVal → String → CVal
  | .struct fs, key => findField fs key
  | _, _ => .bottom

/-- `cue.Value.LookupPath` along a parsed dotted path. -/
def CVal.lookupPath : CVal → List String → CVal
  | v, [] => v
  | v, p :: ps => (v.lookupField p).lookupPath ps

/-- Split a character list at every occurrence of the separator
(`strings.Split` for a one-character separator; also how `cue.ParsePath`
cuts a path of plain labels at the dots). -/
def splitCharList (sep : Char) : List Char → List (List Char)
  | [] => [[]]
  | c :: rest =>
      match splitCharList sep rest with
      | [] => [[c]]
      | h :: t => if c = sep then [] :: h :: t else (c :: h) :: t

/-- `strings.Split(s, sep)` for a one-character separator. -/
def splitString (sep : Char) (s : String) : List String :=
  (splitCharList sep s.toList).map (fun l => ⟨l⟩)

/-- `strings.Join(segs, ".")`. -/
def joinDot : List String → String
  | [] => ""
  | [s] => s
  | s :: rest => s ++ "." ++ joinDot rest

/-- `value.FieldPath(segs...)`: the segments are joined with "." and the
result is parsed as a dotted CUE path, so a dot inside one segment
separates path steps just like a segment boundary does. -/
def fieldPath (segs : List String) : List String :=
  splitString '.' (joinDot segs)

/-- Replace the value of the first field with the given label (the label
is known to be present when this is used). -/
def replaceField : List (String × CVal) → String → CVal → List (String × CVal)
  | [], key, x => [(key, x)]
  | (k, v) :: rest, key, x =>
      if k = key then (k, x) :: rest else (k, v) :: replaceField rest key x

/-- Nest a value under a sequence of fresh labels. -/
def buildAtPath : List String → CVal → CVal
  | [], x => x
  | p :: ps, x => .struct [(p, buildAtPath ps x)]

/-- `cue.Value.FillPath`: place a value at a path, creating intermediate
structs.  (cue unifies with what is already at the path; the render code
only fills paths that are absent or fills back a map that subsumes the
existing content, where unification and replacement coincide, so the
embedding replaces.) -/
def CVal.fillPath : CVal → List String → CVal → CVal
  | _, [], x => x
  | .struct fs, p :: ps, x =>
      if hasKey fs p then
        .struct (replaceField fs p ((findField fs p).fillPath ps x))
      else
        .struct (fs ++ [(p, buildAtPath ps x)])
  | _, p :: ps, x => .struct [(p, buildAtPath ps x)]

/-- `cue.Value.String()` as a partial operation: only string values
convert; on anything else the Go call reports an error. -/
def asString : CVal → Option String
  | .str s => some s
  | _ => none

/-- `cue.Value.Equals`: structural equality of concrete values; the
non-existent/error value equals nothing.  (CUE compares structs up to
field order; the embedding keeps the canonical order on both sides.) -/
def cvalEq (a b : CVal) : Bool :=
  match a, b with
  | .null, .null => true
  | .str x, .str y => x = y
  | .int x, .int y => x = y
  | .bool x, .bool y => x = y
  | .struct fs, .struct gs => fieldsEq fs gs
  | .list xs, .list ys => listEq xs ys
  | _, _ => false
where
  fieldsEq : List (String × CVal) → List (String × CVal) → Bool
    | [], [] => true
    | (k, v) :: fs, (k', v') :: gs => k = k' && cvalEq v v' && fieldsEq fs gs
    | _, _ => false
  listEq : List CVal → List CVal → Bool
    | [], [] => true
    | x :: xs, y :: ys => cvalEq x y && listEq xs ys
    | _, _ => false

/-! ## Nested composition processor (`processComposition`)

The embedding covers `processComposition` from its "refresh data" point
on (after the per-component loop, whose effect is produced by the
external compiler through `processComponent`): the function re-reads
everything it uses from `val` at that point, so the post-phase is a pure
function of the document state `val`. -/

/-- Go map assignment `m[k] = v` on the model of `map[string]cue.Value`:
replace the binding if the key is present, otherwise add it.  (Go map
iteration order is unspecified; the claims only use key membership and
the bound values.) -/
def insertMap (m : List (String × CVal)) (k : String) (v : CVal) : List (String × CVal) :=
  if hasKey m k then replaceField m k v else m ++ [(k, v)]

/-- The path at which the composition-level output pointer is looked up:
`value.FieldPath(strings.Split(ref, ",")...)`, i.e. the pointer is split
on "," and the fragments are joined with "." and re-parsed, so both ","
and "." separate path steps. -/
def pointerSegs (ref : String) : List String :=
  fieldPath (splitString ',' ref)

/-- Lines 58–98 of `processComposition`: build the final `outputs` map
from the declared standard outputs, each component's main output (under
`<key>.main`, unless equal to the standard output) and each component's
secondary outputs (under `<label>.<label>`, unless equal to the standard
output). -/
def compositionOutputsMap (standardOutput standardOutputs components : CVal) :
    List (String × CVal) :=
  let init : List (String × CVal) :=
    match standardOutputs with
    | .struct fs => fs.foldl (fun m kv => insertMap m kv.1 kv.2) []
    | _ => []
  match components with
  | .struct comps =>
      comps.foldl (fun m kv =>
        let compKey := kv.1
        let compVal := kv.2
        let m :=
          if !cvalEq (compVal.lookupField "output") standardOutput then
            insertMap m (compKey ++ ".main") (compVal.lookupField "output")
          else m
        match compVal.lookupField "outputs" with
        | .struct outs =>
            outs.foldl (fun m kv2 =>
              let compOutputKey := kv2.1
              if !cvalEq kv2.2 standardOutput then
                -- the source writes `compOutputsIter.Label()+"."+compOutputKey`,
                -- and `compOutputKey` *is* `compOutputsIter.Label()`
                insertMap m (kv2.1 ++ "." ++ compOutputKey) kv2.2
              else m) m
        | _ => m) init
  | _ => init

/-- `processComposition`, lines 44–101: resolve the composition-level
output pointer (error when the base template also declares `output`),
then assemble and fill the final `outputs` map. -/
def processCompositionPost (val : CVal) : Except String CVal :=
  let compositions := val.lookupField "composition"
  let components := compositions.lookupField "components"
  let compositionOutputRef := compositions.lookupField "output"
  let step1 : Except String CVal :=
    if compositionOutputRef.Exists then
      if (val.lookupField "output").Exists then
        .error "cannot declare output in base template and composition"
      else
        -- `compositionOutputRef.String()`'s error is discarded; the zero
        -- string stands in when the pointer is not a string
        let compositionOutputPath := (asString compositionOutputRef).getD ""
        let compOutput := components.lookupPath (pointerSegs compositionOutputPath)
        .ok (val.fillPath ["output"] compOutput)
    else .ok val
  match step1 with
  | .error e => .error e
  | .ok v =>
      let outs := compositionOutputsMap (v.lookupField "output") (v.lookupField "outputs")
        components
      .ok (v.fillPath ["outputs"] (.struct outs))

/-! ## CUE unification (`sets.StrategyUnify` / `model.Instance.Unify`)

Structs merge recursively; scalars must agree; lists unify elementwise
at equal length.  `model.Instance.Unify` assigns the unified value only
when unification succeeded, so a failed unification leaves the instance
untouched. -/

mutual

/-- Unify two concrete values: the shallow model of CUE unification on
the concrete documents the lifecycle works with. -/
def unifyV : CVal → CVal → Except String CVal
  | .struct fs, .struct gs =>
      match unifyIntoFields fs gs with
      | .error e => .error e
      | .ok merged => .ok (.struct (merged ++ gs.filter (fun kv => !hasKey fs kv.1)))
  | .list xs, .list ys =>
      match unifyLists xs ys with
      | .error e => .error e
      | .ok zs => .ok (.list zs)
  | a, b => if cvalEq a b then .ok a else .error "conflicting values"

/-- Unify the right-hand fields into the left-hand field list, keeping
the left-hand order; fields only on the right are appended by the
caller. -/
def unifyIntoFields : List (String × CVal) → List (String × CVal) →
    Except String (List (String × CVal))
  | [], _ => .ok []
  | (k, v) :: rest, gs =>
      match (if hasKey gs k then unifyV v (findField gs k) else .ok v) with
      | .error e => .error e
      | .ok v2 =>
          match unifyIntoFields rest gs with
          | .error e => .error e
          | .ok rest2 => .ok ((k, v2) :: rest2)

/-- Elementwise list unification; length mismatch conflicts. -/
def unifyLists : List CVal → List CVal → Except String (List CVal)
  | [], [] => .ok []
  | x :: xs, y :: ys =>
      match unifyV x y with
      | .error e => .error e
      | .ok z =>
          match unifyLists xs ys with
          | .error e => .error e
          | .ok zs => .ok (z :: zs)
  | _, _ => .error "conflicting list lengths"

end

/-! ## Trait lifecycle (`traitDef.Complete`), post-validation phase

The embedding covers `traitDef.Complete` from the `outputs` extraction
on (lines 286–337): the earlier stages (parameter marshalling, template
compilation, validation, the `processing` hook) either abort without
touching the process context or are the external compiler's work; the
claims about the context state concern this suffix.  The Go code
mutates the process context in place and returns an `error`, so the
model returns the context as mutated up to the failure point together
with the optional error. -/

/-- `process.Auxiliary`. -/
structure Auxiliary where
  name : String
  typ : String
  ins : CVal
deriving Repr

/-- The slice of `process.Context` the trait lifecycle reads and
writes: the primary workload (`nil` when no workload has been resolved)
and the auxiliary resources. -/
structure PContext where
  base : Option CVal
  auxiliaries : List Auxiliary
deriving Repr

/-- `parseErrors`: first non-empty string in the `errs` list; `List()`
failing (not a list) or string conversion failing (non-string element)
is silently skipped. -/
def parseErrors (errs : CVal) : Option String :=
  match errs with
  | .list xs => firstNonEmptyStr xs
  | _ => none
where
  firstNonEmptyStr : List CVal → Option String
    | [] => none
    | .str s :: rest => if s ≠ "" then some s else firstNonEmptyStr rest
    | _ :: rest => firstNonEmptyStr rest

/-- Lines 317–328: unify each matching `patchOutputs` field into the
auxiliary with that name, in auxiliary order, mutating as it goes; a
failed unification aborts, leaving earlier auxiliaries patched and the
failing and later ones untouched. -/
def patchAuxiliaries (name : String) (outputsPatcher : CVal) :
    List Auxiliary → List Auxiliary × Option String
  | [] => ([], none)
  | a :: rest =>
      let target := outputsPatcher.lookupField a.name
      if target.Exists then
        match unifyV a.ins target with
        | .error _ =>
            (a :: rest,
             some ("trait=" ++ name ++ ", to=" ++ a.name ++
               ", invalid patch trait into auxiliary workload"))
        | .ok ins2 =>
            let (rest2, e) := patchAuxiliaries name outputsPatcher rest
            ({ a with ins := ins2 } :: rest2, e)
      else
        let (rest2, e) := patchAuxiliaries name outputsPatcher rest
        (a :: rest2, e)

/-- Lines 317–337 of `traitDef.Complete`: the `patchOutputs` step and
the `errs` step. -/
def traitAfterPatch (name : String) (val : CVal) (st : PContext) :
    PContext × Option String :=
  let outputsPatcher := val.lookupField "patchOutputs"
  let (auxs, e) :=
    if outputsPatcher.Exists then patchAuxiliaries name outputsPatcher st.auxiliaries
    else (st.auxiliaries, none)
  let st := { st with auxiliaries := auxs }
  match e with
  | some e => (st, some e)
  | none =>
      let errs := val.lookupField "errs"
      if errs.Exists then
        match parseErrors errs with
        | some e => (st, some e)
        | none => (st, none)
      else (st, none)

/-- Lines 286–305 of `traitDef.Complete`: each field of the compiled
document's `outputs` is appended to the context's auxiliaries, tagged
with the trait's own name.  (The iteration skips definition / hidden /
package / optional selectors; the model's structs carry only regular
fields.  `model.NewOther` failures on non-concrete values are the
external evaluator's concern and are not modelled.) -/
def extractTraitOutputs (name : String) (val : CVal) (st : PContext) : PContext :=
  match val.lookupField "outputs" with
  | .struct fs =>
      { st with auxiliaries := st.auxiliaries ++ fs.map (fun kv => ⟨kv.1, name, kv.2⟩) }
  | _ => st

/-- Lines 286–337 of `traitDef.Complete`: extract `outputs` as
auxiliaries tagged with the trait's name, apply the `patch` field to the
primary workload (error when none exists; `Unify` updates the base only
on success), then `patchOutputs` and `errs`. -/
def traitCompletePost (name : String) (val : CVal) (st : PContext) :
    PContext × Option String :=
  let st := extractTraitOutputs name val st
  let patcher := val.lookupField "patch"
  if patcher.Exists then
    match st.base with
    | none => (st, some ("patch trait " ++ name ++ " into an invalid workload"))
    | some b =>
        match unifyV b patcher with
        | .error _ =>
            (st, some ("invalid patch trait " ++ name ++ " into workload"))
        | .ok b2 => traitAfterPatch name val { st with base := some b2 }
  else traitAfterPatch name val st

/-! ## Config reference resolution (`getConfigFromCueVal`,
`ComponentRenderEngine.GetConfiguration`, `pkg/cue/render`)

The injected reader `common.ReadConfig(ctx, client, namespace, name)` is
a parameter; its result is a `map[string]interface{}`, modelled as a
field list. -/

/-- `oam.SystemDefinitionNamespace`. -/
def systemDefinitionNamespace : String := "vela-system"

/-- `getConfigFromCueVal`: read `name` (required — but its string
conversion error is discarded, leaving the zero string) and `namespace`
(optional, defaulting to the system namespace; its string conversion
error aborts), then invoke the reader. -/
def getConfigFromCueVal (readConfig : String → String → Except String (List (String × CVal)))
    (key : String) (config : CVal) : Except String (List (String × CVal)) :=
  let cfgName := config.lookupField "name"
  if !cfgName.Exists then
    .error ("Invalid configuration provided in field `config." ++ key ++
      "`. Must specify `name` field.")
  else
    -- `cfgName.String()`'s error is discarded: a non-string name leaves
    -- the zero string and resolution continues
    let cfgNameStr := (asString cfgName).getD ""
    let cfgNamespace := config.lookupField "namespace"
    if cfgNamespace.Exists then
      match asString cfgNamespace with
      | none =>
          -- `cfgNamespace.String()`'s error is returned as-is (the key is
          -- only logged, not attached to the error)
          .error "cannot use value as string"
      | some ns => readConfig ns cfgNameStr
    else readConfig systemDefinitionNamespace cfgNameStr

/-- The entry loop of `ComponentRenderEngine.GetConfiguration`
(render.go, lines 459–478): resolve every entry under the `config`
field; the first entry error fails the whole configuration layer. -/
def getConfigurationEntries
    (readConfig : String → String → Except String (List (String × CVal))) :
    List (String × CVal) → Except String (List (String × List (String × CVal)))
  | [] => .ok []
  | (configKey, config) :: rest =>
      match getConfigFromCueVal readConfig configKey config with
      | .error e => .error e
      | .ok content =>
          match getConfigurationEntries readConfig rest with
          | .error e => .error e
          | .ok m => .ok (m ++ [(configKey, content)])

/-- The binding `config, _ := re.GetConfiguration(ctx, render)` in both
revisions of `Render` (render.go lines 69 and 317): GetConfiguration's
error is discarded, the zero value — an empty configuration layer —
standing in, so an entry error aborts the configuration layer but never
fails the render.  (The serialized layer string is modelled by its map
content.) -/
def renderConfigBinding (readConfig : String → String → Except String (List (String × CVal)))
    (entries : List (String × CVal)) : List (String × List (String × CVal)) :=
  match getConfigurationEntries readConfig entries with
  | .ok m => m
  | .error _ => []

/-- The `$config` resolution loop of `ComponentDataRenderer.Render`
(datarender.go lines 68–78): each entry's error is discarded
(`val, _ := getConfigFromCueVal(...)`), the nil content — CUE `null` —
is filled at `$config.<key>.output`, and the loop continues with the
remaining entries; the render is never failed from here. -/
def dataRenderConfigLoop (readConfig : String → String → Except String (List (String × CVal))) :
    List (String × CVal) → CVal → CVal
  | [], cueVal => cueVal
  | (configKey, config) :: rest, cueVal =>
      let content := match getConfigFromCueVal readConfig configKey config with
        | .ok m => CVal.struct m
        | .error _ => CVal.null
      dataRenderConfigLoop readConfig rest
        (cueVal.fillPath ["$config", configKey, "output"] content)

/-- `ComponentRenderEngine.GetConfiguration` of the first render.go
revision (lines 139–173): an entry with no `name` field is silently
skipped (`continue`); the string-conversion errors of `name` and
`namespace` are ignored (the zero string standing in), the reader's
error is discarded (`content, _ :=`), and its nil content (`none`) is
stored in the map regardless. -/
def getConfigurationSkipping
    (readConfig : String → String → Except String (List (String × CVal))) :
    List (String × CVal) → List (String × Option (List (String × CVal)))
  | [] => []
  | (configKey, config) :: rest =>
      match config.lookupField "name" with
      | .bottom => getConfigurationSkipping readConfig rest
      | nameVal =>
          let cfgNameStr := (asString nameVal).getD ""
          let cfgNamespaceStr := match config.lookupField "namespace" with
            | .bottom => systemDefinitionNamespace
            | nsVal => (asString nsVal).getD ""
          let content := match readConfig cfgNamespaceStr cfgNameStr with
            | .ok m => some m
            | .error _ => none
          (configKey, content) :: getConfigurationSkipping readConfig rest

/-! ## Data reference resolution (`getDataFromCue`, `pkg/cue/render`)

The compiler's provider registry is a parameter: a provider maps a
function name to an optional provider function; the Go code would
dereference a nil function, so the model's error in that branch stands
for behaviour the claims never reach. -/

/-- `data.FillPath("$params", data.LookupPath("params"))` when a
`params` field exists: the arguments document handed to the provider
call. -/
def dataWithParams (data : CVal) : CVal :=
  let paramsAlias := data.lookupField "params"
  if paramsAlias.Exists then data.fillPath ["$params"] paramsAlias else data

/-- `getDataFromCue`: require `provider` and `function`, copy `params`
to the `$params` alias, invoke the provider function, and expose the
result's `$returns` field — or the empty value, with no error, when the
result has none. -/
def getDataFromCue
    (providers : List (String × (String → Option (CVal → Except String CVal))))
    (key : String) (data : CVal) : Except String CVal :=
  let provider := data.lookupField "provider"
  if !provider.Exists then .error ("provider not set in `data." ++ key ++ "`")
  else
    let providerStr := (asString provider).getD ""
    let fnVal := data.lookupField "function"
    if !fnVal.Exists then .error ("function not set in `data." ++ key ++ "`")
    else
      let fnStr := (asString fnVal).getD ""
      let args := dataWithParams data
      match findIn providers providerStr with
      | some p =>
          match p fnStr with
          | some fn =>
              match fn args with
              | .error e => .error e
              | .ok result =>
                  let returnsVal := result.lookupField "$returns"
                  if returnsVal.Exists then .ok returnsVal
                  else .ok .bottom
          | none => .error "nil provider function"
      | none => .error ("no package " ++ providerStr ++ " found in compiler")
where
  findIn {α : Type} : List (String × α) → String → Option α
    | [], _ => none
    | (k, v) :: rest, key => if k = key then some v else findIn rest key

/-! ## Custom-fields layer (`ComponentRenderEngine.GetFields`)

The Go function serializes each kept field to text; the embedding
returns the kept (label, value) pairs, the semantic content of the
layer. -/

/-- The `reserved` top-level names of render.go. -/
def reservedNames : List String := ["output", "outputs", "parameter", "context", "config"]

/-- `ComponentRenderEngine.GetFields`: every top-level field of the
pre-rendered definition whose label is not reserved. -/
def getFields (tmplCue : CVal) : List (String × CVal) :=
  match tmplCue with
  | .struct fs => fs.filter (fun kv => !reservedNames.contains kv.1)
  | _ => []

/-! ## Diagnostic formatter (`formatCueValidationErrors`)

A raw validation error is a (path, message) pair.  The message
enrichment (`extractFieldContext`, `extractValueInfo`,
`replaceValuesWithPlaceholders`) rewrites the displayed message from
the path and raw message deterministically; it is a parameter here, so
the grouping theorems hold for every enrichment.  Deduplication is
keyed on the raw message, exactly as in the source
(`errorIndex[pathStr][msg]`). -/

/-- A raw error from `cueErrors.Errors(err)`: its `Path()` and the
formatted `Msg()`. -/
structure RawErr where
  path : List String
  msg : String
deriving Repr

/-- `strings.Join(path, ".")`, with the literal root key for an empty
path. -/
def pathStrOf (p : List String) : String :=
  if p.length > 0 then joinDot p else "(root)"

/-- Character-list prefix test. -/
def startsWithCL : List Char → List Char → Bool
  | [], _ => true
  | _ :: _, [] => false
  | p :: ps, c :: cs => p = c && startsWithCL ps cs

/-- Character-list substring test. -/
def containsCL (pat : List Char) : List Char → Bool
  | [] => startsWithCL pat []
  | c :: cs => startsWithCL pat (c :: cs) || containsCL pat cs

/-- `strings.Contains(s, pat)`. -/
def containsSubstr (s pat : String) : Bool :=
  containsCL pat.toList s.toList

/-- `strings.Contains(msg, "errors in empty disjunction")`, the
disjunction-summary skip test. -/
def isDisjunctionSummary (msg : String) : Bool :=
  containsSubstr msg "errors in empty disjunction"

/-- One deduplicated entry of a path's error group: the raw message it
is keyed on, the enriched message displayed, and the occurrence
count. -/
structure GEntry where
  rawMsg : String
  message : String
  count : Nat
deriving Repr

/-- Register one occurrence in a group's entry list: bump the entry
keyed on this raw message, or append a fresh entry with count 1. -/
def bumpEntry : List GEntry → String → String → List GEntry
  | [], m, em => [⟨m, em, 1⟩]
  | e :: rest, m, em =>
      if e.rawMsg = m then { e with count := e.count + 1 } :: rest
      else e :: bumpEntry rest m em

/-- The path-indexed error groups, in first-seen path order. -/
abbrev Groups := List (String × List GEntry)

/-- Register one occurrence under its path group, appending a new group
at the end when the path is first seen. -/
def addEntry : Groups → String → String → String → Groups
  | [], ps, m, em => [(ps, [⟨m, em, 1⟩])]
  | (k, es) :: rest, ps, m, em =>
      if k = ps then (k, bumpEntry es m em) :: rest
      else (k, es) :: addEntry rest ps m em

/-- One iteration of the grouping loop of `formatCueValidationErrors`
(lines 681–737): skip disjunction summaries, otherwise register the
occurrence under its dotted path, keyed on the raw message, storing the
enriched message. -/
def groupErrorsStep (enrich : List String → String → String) (g : Groups) (e : RawErr) :
    Groups :=
  if isDisjunctionSummary e.msg then g
  else addEntry g (pathStrOf e.path) e.msg (enrich e.path e.msg)

/-- The grouping loop of `formatCueValidationErrors`: group by dotted
path in first-seen order, deduplicating identical raw messages into one
entry with a count. -/
def groupErrors (enrich : List String → String → String) (errs : List RawErr) : Groups :=
  errs.foldl (groupErrorsStep enrich) []

/-- Render one deduplicated entry: the enriched message, suffixed with
its multiplicity when above one (lines 749–755). -/
def renderEntry (e : GEntry) : String :=
  if e.count > 1 then e.message ++ " (×" ++ toString e.count ++ ")" else e.message

/-- Render one path block: the `[path]` header and its error line(s)
(lines 763–811; the best-effort info lines — statement, default,
provided, types, constraints — enrich the block but do not affect the
entry structure the claims are about). -/
def renderBlock (g : String × List GEntry) : String :=
  let msgs := g.2.map renderEntry
  "\n[" ++ g.1 ++ "]" ++
    (match msgs with
     | [m] => "\n  error:        " ++ m
     | ms => "\n  errors:       [" ++ joinComma ms ++ "]")
where
  /-- `strings.Join(msgs, ", ")`. -/
  joinComma : List String → String
    | [] => ""
    | [s] => s
    | s :: rest => s ++ ", " ++ joinComma rest

/-- `formatCueValidationErrors`: nil in, nil out; otherwise always a
(non-nil) formatted report over the grouped errors. -/
def formatCueValidationErrors (enrich : List String → String → String)
    (input : Option (List RawErr)) (contextStr : String) : Option String :=
  match input with
  | none => none
  | some errs =>
      some ("CUE validation failed for " ++ contextStr ++ ":\n" ++
        String.join ((groupErrors enrich errs).map renderBlock))

/-! ## Spec-side definitions and statement helpers -/

/-- Spec-side reading of the composition output pointer: "the pointer
string is interpreted as a dotted path into the components map ...
splitting the pointer on '.'" — the pointer split on dots only, every
other character (a comma included) staying inside its segment. -/
def specDottedPointerLookup (components : CVal) (ref : String) : CVal :=
  components.lookupPath (splitString '.' ref)

/-- Spec-side reading of `parseErrors`: the first non-empty string in
list order among the list's string elements; no error for an empty
list, a list without a non-empty string, or a non-list. -/
def specParseErrors (errs : CVal) : Option String :=
  match errs with
  | .list xs =>
      (xs.filterMap (fun v => match v with | .str s => some s | _ => none)).find?
        (fun s => s ≠ "")
  | _ => none

/-- The `output` field of a successful result (the non-existent value
on an error, which carries no resolved value). -/
def resultOutput : Except String CVal → CVal
  | .ok v => v.lookupField "output"
  | .error _ => .bottom

/-- Whether a successful result's final `outputs` struct carries the
given key. -/
def resultOutputsHasKey (r : Except String CVal) (k : String) : Bool :=
  match r with
  | .ok v =>
      match v.lookupField "outputs" with
      | .struct fs => hasKey fs k
      | _ => false
  | .error _ => false

/-- The entry list a path is grouped under. -/
def groupOf : Groups → String → List GEntry
  | [], _ => []
  | (k, es) :: rest, ps => if k = ps then es else groupOf rest ps

/-- How many deduplicated entries of the path's group are keyed on the
given raw message (the claim demands exactly one whenever the pair
occurred, never one per occurrence). -/
def numEntries (g : Groups) (ps m : String) : Nat :=
  (groupOf g ps).countP (fun e => decide (e.rawMsg = m))

/-- The total occurrence count carried by the entries keyed on the
given (path, raw message) pair. -/
def countIn (g : Groups) (ps m : String) : Nat :=
  ((((groupOf g ps).filter (fun e => decide (e.rawMsg = m))).map GEntry.count)).sum

/-- How often the (path, message) pair occurs among the raw errors. -/
def occurrences (errs : List RawErr) (ps m : String) : Nat :=
  errs.countP (fun e => decide (pathStrOf e.path = ps ∧ e.msg = m))

/-- Append a key, keeping only its first occurrence. -/
def insKey (acc : List String) (s : String) : List String :=
  if s ∈ acc then acc else acc ++ [s]

/-- First-seen deduplication of a list of keys (the spec-side reading
of "path groups appear in first-seen order"). -/
def firstSeen (ks : List String) : List String :=
  ks.foldl insKey []

/-- The path keys of the errors the formatter does not skip, in input
order. -/
def visiblePaths (errs : List RawErr) : List String :=
  (errs.filter (fun e => !isDisjunctionSummary e.msg)).map (fun e => pathStrOf e.path)

/-! ## Concrete example documents -/

/-- The standard output of the example composition. -/
def stdOut : CVal := .str "std"

/-- Component `a`'s main output in the examples. -/
def aOut : CVal := .str "xval"

/-- Component `b`'s secondary output `y` in the examples. -/
def yOut : CVal := .str "yval"

/-- A resolved composition: base output `stdOut`; component `a` with a
distinct main output; component `b` whose main output equals the
standard output and which carries a secondary output under `y`. -/
def exCompB : CVal := .struct [
  ("output", stdOut),
  ("composition", .struct [
    ("components", .struct [
      ("a", .struct [("output", aOut)]),
      ("b", .struct [("output", stdOut), ("outputs", .struct [("y", yOut)])])])])]

/-- A composition whose base template declares `output` and whose
composition block also declares the output pointer. -/
def exConflict : CVal := .struct [
  ("output", stdOut),
  ("composition", .struct [
    ("output", .str "a"),
    ("components", .struct [("a", .struct [("output", aOut)])])])]

/-- As `exConflict` but without the base `output`: only the
composition-level pointer. -/
def exNoConflict : CVal := .struct [
  ("composition", .struct [
    ("output", .str "a.output"),
    ("components", .struct [("a", .struct [("output", aOut)])])])]

/-- The components map of `exCommaPointer`. -/
def exCommaComponents : CVal := .struct [("a", .struct [("b", .str "v")])]

/-- A composition whose output pointer contains a comma: no field of
the components map is literally named "a,b", yet `components.a.b`
exists. -/
def exCommaPointer : CVal := .struct [
  ("composition", .struct [
    ("output", .str "a,b"),
    ("components", exCommaComponents)])]

/-- A trait document with a patch that unifies cleanly and an `errs`
list raising an explicit error afterwards. -/
def exTraitErrsVal : CVal := .struct [
  ("patch", .struct [("x", .int 1)]),
  ("errs", .list [.str "boom"])]

/-- A process context owning a resolved base workload `{y: 2}`. -/
def exTraitSt : PContext := { base := some (.struct [("y", .int 2)]), auxiliaries := [] }

/-- A trait document carrying only a patch. -/
def exPatchOnlyVal : CVal := .struct [("patch", .struct [("x", .int 1)])]

/-- A process context with no resolved workload. -/
def exNoBaseSt : PContext := { base := none, auxiliaries := [] }

/-- A trait document whose patch conflicts with the example base
(`y: 2` against `y: 3`). -/
def exConflictPatchVal : CVal := .struct [("patch", .struct [("y", .int 3)])]

/-- A config entry whose `name` is not a string. -/
def exBadNameCfg : CVal := .struct [("name", .int 5), ("namespace", .str "ns1")]

/-- A reader accepting everything, recording the coordinates it was
invoked with. -/
def exReadConfig : String → String → Except String (List (String × CVal)) :=
  fun ns n => .ok [("ns", .str ns), ("name", .str n)]

/-- A config entry with no `name` field. -/
def exNoNameCfg : CVal := .struct [("namespace", .str "ns1")]

/-- A config entry whose `namespace` is not a string. -/
def exBadNsCfg : CVal := .struct [("name", .str "creds"), ("namespace", .int 7)]

/-- A config entry whose `name` is not a string and with no
`namespace`. -/
def exBadNameOnlyCfg : CVal := .struct [("name", .int 5)]

/-- A data reference to provider `p`, function `f`, with params. -/
def exDataRef : CVal := .struct [
  ("provider", .str "p"),
  ("function", .str "f"),
  ("params", .struct [("k", .str "v")])]

/-- A data reference to provider `p`, function `g`. -/
def exDataRefBare : CVal := .struct [
  ("provider", .str "p"),
  ("function", .str "g")]

/-- A provider function returning a `$returns` document. -/
def exProviderFnReturns : CVal → Except String CVal :=
  fun _ => .ok (.struct [("$returns", .str "resolved")])

/-- A provider function returning a document with no `$returns`. -/
def exProviderFnBare : CVal → Except String CVal :=
  fun _ => .ok (.struct [("other", .str "x")])

/-- A provider exposing `f` (with `$returns`) and `g` (without). -/
def exProviderP : String → Option (CVal → Except String CVal) :=
  fun fn =>
    if fn = "f" then some exProviderFnReturns
    else if fn = "g" then some exProviderFnBare
    else none

/-- A registry with the single provider `p`. -/
def exProviders : List (String × (String → Option (CVal → Except String CVal))) :=
  [("p", exProviderP)]

/-- A disjunction-summary diagnostic (the shape the formatter
skips). -/
def exDisjErr : RawErr := { path := [], msg := "2 errors in empty disjunction:" }

/-- An ordinary diagnostic at `parameter.image`. -/
def exPlainErr : RawErr := { path := ["parameter", "image"], msg := "conflicting values 1 and 2" }

/-- A pre-rendered definition document with reserved and custom
top-level fields. -/
def exTemplateDoc : CVal := .struct [
  ("output", .struct [("kind", .str "ConfigMap")]),
  ("helper", .str "custom"),
  ("parameter", .struct [("name", .str "demo")]),
  ("config", .struct []),
  ("mount", .struct [("path", .str "/data")])]

/-! # Theorems -/

/-! ## Field-list infrastructure -/

theorem findField_replaceField (fs : List (String × CVal)) (p : String) (x : CVal) :
    findField (replaceField fs p x) p = x := by
  induction fs with
  | nil => simp [replaceField, findField]
  | cons kv rest ih =>
      obtain ⟨k, v⟩ := kv
      by_cases h : k = p
      · simp [replaceField, findField, h]
      · simp [replaceField, findField, h, ih]

theorem findField_replaceField_other (fs : List (String × CVal)) (p q : String) (x : CVal)
    (h : q ≠ p) : findField (replaceField fs q x) p = findField fs p := by
  induction fs with
  | nil => simp [replaceField, findField, h]
  | cons kv rest ih =>
      obtain ⟨k, v⟩ := kv
      by_cases hk : k = q
      · subst hk
        simp [replaceField, findField, h]
      · simp [replaceField, findField, hk, ih]

theorem findField_eq_bottom_of_not_hasKey (fs : List (String × CVal)) (p : String)
    (h : hasKey fs p = false) : findField fs p = .bottom := by
  induction fs with
  | nil => simp [findField]
  | cons kv rest ih =>
      obtain ⟨k, v⟩ := kv
      simp only [hasKey, Bool.or_eq_false_iff, decide_eq_false_iff_not] at h
      simp [findField, h.1, ih h.2]

theorem findField_append (fs gs : List (String × CVal)) (p : String) :
    findField (fs ++ gs) p = if hasKey fs p then findField fs p else findField gs p := by
  induction fs with
  | nil => simp [findField, hasKey]
  | cons kv rest ih =>
      obtain ⟨k, v⟩ := kv
      by_cases h : k = p
      · simp [findField, hasKey, h]
      · simp [findField, hasKey, h, ih]

theorem exists_str (s : String) : (CVal.str s).Exists = true := rfl

theorem exists_eq_bottom (v : CVal) (h : v.Exists = false) : v = .bottom := by
  cases v <;> simp_all [CVal.Exists]

theorem lookupField_fillPath_self (v x : CVal) (p : String) :
    (CVal.fillPath v [p] x).lookupField p = x := by
  cases v with
  | struct fs =>
      by_cases h : hasKey fs p = true
      · simp [CVal.fillPath, h, CVal.lookupField, findField_replaceField]
      · simp only [Bool.not_eq_true] at h
        simp [CVal.fillPath, h, CVal.lookupField, findField_append,
          buildAtPath, findField]
  | bottom => simp [CVal.fillPath, CVal.lookupField, buildAtPath, findField]
  | null => simp [CVal.fillPath, CVal.lookupField, buildAtPath, findField]
  | str s => simp [CVal.fillPath, CVal.lookupField, buildAtPath, findField]
  | int n => simp [CVal.fillPath, CVal.lookupField, buildAtPath, findField]
  | bool b => simp [CVal.fillPath, CVal.lookupField, buildAtPath, findField]
  | list xs => simp [CVal.fillPath, CVal.lookupField, buildAtPath, findField]

theorem lookupField_fillPath_other (v x : CVal) (p q : String) (h : q ≠ p) :
    (CVal.fillPath v [q] x).lookupField p = v.lookupField p := by
  cases v with
  | struct fs =>
      by_cases hk : hasKey fs q = true
      · simp [CVal.fillPath, hk, CVal.lookupField, findField_replaceField_other _ _ _ _ h]
      · simp only [Bool.not_eq_true] at hk
        simp only [CVal.fillPath, hk, Bool.false_eq_true, if_false, CVal.lookupField]
        rw [findField_append]
        by_cases hp : hasKey fs p = true
        · simp [hp]
        · simp only [Bool.not_eq_true] at hp
          simp [hp, findField, h, findField_eq_bottom_of_not_hasKey _ _ hp]
  | bottom => simp [CVal.fillPath, CVal.lookupField, buildAtPath, findField, h]
  | null => simp [CVal.fillPath, CVal.lookupField, buildAtPath, findField, h]
  | str s => simp [CVal.fillPath, CVal.lookupField, buildAtPath, findField, h]
  | int n => simp [CVal.fillPath, CVal.lookupField, buildAtPath, findField, h]
  | bool b => simp [CVal.fillPath, CVal.lookupField, buildAtPath, findField, h]
  | list xs => simp [CVal.fillPath, CVal.lookupField, buildAtPath, findField, h]

/-! ## C1 — output conflict between base template and composition -/

/-- C1: whenever the composition-level output pointer exists, an
existing top-level `output` of the base document makes
`processComposition` return the named conflict error — and an `error`
result carries no resolved value — while with no base `output` field no
error at all is returned. -/
theorem processComposition_output_conflict (val : CVal)
    (href : ((val.lookupField "composition").lookupField "output").Exists = true) :
    ((val.lookupField "output").Exists = true →
      processCompositionPost val =
        .error "cannot declare output in base template and composition")
    ∧ ((val.lookupField "output").Exists = false →
      ∃ r, processCompositionPost val = .ok r) := by
  constructor
  · intro h
    simp [processCompositionPost, href, h]
  · intro h
    simp [processCompositionPost, href, h]

/-- Witness for C1 at two concrete compositions: the conflicting one
errors, the pointer-only one succeeds. -/
theorem processComposition_output_conflict_witness :
    (((exConflict.lookupField "composition").lookupField "output").Exists = true
      ∧ (exConflict.lookupField "output").Exists = true
      ∧ processCompositionPost exConflict =
          .error "cannot declare output in base template and composition")
    ∧ (((exNoConflict.lookupField "composition").lookupField "output").Exists = true
      ∧ (exNoConflict.lookupField "output").Exists = false
      ∧ ∃ r, processCompositionPost exNoConflict = .ok r) :=
  ⟨⟨rfl, rfl, (processComposition_output_conflict exConflict rfl).1 rfl⟩,
   ⟨rfl, rfl, (processComposition_output_conflict exNoConflict rfl).2 rfl⟩⟩

/-! ## C2 — keys of the final outputs map -/

/-- C2 (code bug): at `exCompB` the final outputs map keeps `a.main`
and drops `b.main` as the claim states, but component `b`'s secondary
output `y` is stored under `y.y` — the source concatenates the output
iterator's label with itself (`compOutputsIter.Label()+"."+compOutputKey`
where `compOutputKey := compOutputsIter.Label()`) instead of the
component key `b`, so the claimed key `b.y` is absent. -/
theorem processComposition_secondary_output_key_bug :
    resultOutputsHasKey (processCompositionPost exCompB) "a.main" = true
    ∧ resultOutputsHasKey (processCompositionPost exCompB) "b.main" = false
    ∧ resultOutputsHasKey (processCompositionPost exCompB) "y.y" = true
    ∧ resultOutputsHasKey (processCompositionPost exCompB) "b.y" = false :=
  ⟨rfl, rfl, rfl, rfl⟩

/-! ## C7 — interpretation of the composition output pointer -/

/-- C7 counterexample: with the pointer `"a,b"`, the claim's reading
(split on '.' only) finds nothing in the components map — there is no
field named "a,b" — yet the code resolves the final output to
`components.a.b`, because the pointer is split on ','. -/
theorem processComposition_pointer_comma_counterexample :
    specDottedPointerLookup exCommaComponents "a,b" = .bottom
    ∧ resultOutput (processCompositionPost exCommaPointer) = .str "v" :=
  ⟨rfl, rfl⟩

/-- C7 as amended: the pointer is split on ',' by `processComposition`
and the fragments are joined into one dotted CUE path by
`value.FieldPath`, so ',' and '.' both separate path segments; the
final output is the components-map value at that path.  (For a
comma-free pointer such as "web.output" this is exactly the dotted-path
lookup the claim describes.) -/
theorem processComposition_pointer_path (val : CVal) (p : String)
    (hp : asString ((val.lookupField "composition").lookupField "output") = some p)
    (hout : (val.lookupField "output").Exists = false) :
    ∃ r, processCompositionPost val = .ok r ∧
      r.lookupField "output" =
        ((val.lookupField "composition").lookupField "components").lookupPath
          (pointerSegs p) := by
  have href : ((val.lookupField "composition").lookupField "output") = .str p := by
    cases h : (val.lookupField "composition").lookupField "output" <;>
      simp_all [asString]
  simp only [processCompositionPost, href, hout, exists_str, asString, Option.getD_some,
    Bool.false_eq_true, if_false, if_true]
  refine ⟨_, rfl, ?_⟩
  rw [lookupField_fillPath_other _ _ _ _ (by decide), lookupField_fillPath_self]

/-- Witness for C7's amended theorem at the dotted pointer
"a.output". -/
theorem processComposition_pointer_path_witness :
    asString ((exNoConflict.lookupField "composition").lookupField "output") = some "a.output"
    ∧ (exNoConflict.lookupField "output").Exists = false
    ∧ ∃ r, processCompositionPost exNoConflict = .ok r ∧
        r.lookupField "output" =
          ((exNoConflict.lookupField "composition").lookupField "components").lookupPath
            (pointerSegs "a.output") :=
  ⟨rfl, rfl, processComposition_pointer_path exNoConflict "a.output" rfl rfl⟩

/-! ## Trait lifecycle infrastructure -/

theorem extractTraitOutputs_base (name : String) (val : CVal) (st : PContext) :
    (extractTraitOutputs name val st).base = st.base := by
  unfold extractTraitOutputs
  split <;> rfl

theorem traitAfterPatch_base (name : String) (val : CVal) (st : PContext) :
    (traitAfterPatch name val st).1.base = st.base := by
  unfold traitAfterPatch
  rcases hpa : (if (val.lookupField "patchOutputs").Exists = true then
      patchAuxiliaries name (val.lookupField "patchOutputs") st.auxiliaries
    else (st.auxiliaries, none)) with ⟨auxs, e⟩
  simp only [hpa]
  cases e with
  | some e => rfl
  | none =>
      by_cases he : (val.lookupField "errs").Exists = true
      · simp only [he, if_true]
        cases parseErrors (val.lookupField "errs") <;> rfl
      · rw [if_neg he]

theorem hasKey_filter_false (gs : List (String × CVal)) (pred : String × CVal → Bool)
    (k : String) (h : hasKey gs k = false) : hasKey (gs.filter pred) k = false := by
  induction gs with
  | nil => exact h
  | cons kv rest ih =>
      obtain ⟨k', v⟩ := kv
      simp only [hasKey, Bool.or_eq_false_iff, decide_eq_false_iff_not] at h
      by_cases hp : pred (k', v) = true
      · simp [List.filter, hp, hasKey, h.1, ih h.2]
      · simp only [Bool.not_eq_true] at hp
        simp [List.filter, hp, ih h.2]

theorem unifyIntoFields_frame (fs gs : List (String × CVal)) (k : String)
    (hg : hasKey gs k = false) :
    ∀ merged, unifyIntoFields fs gs = .ok merged →
      findField merged k = findField fs k ∧ hasKey merged k = hasKey fs k := by
  induction fs with
  | nil =>
      intro merged h
      simp only [unifyIntoFields] at h
      cases h
      simp
  | cons kv rest ih =>
      intro merged h
      obtain ⟨k', v⟩ := kv
      simp only [unifyIntoFields] at h
      cases hu : (if hasKey gs k' then unifyV v (findField gs k') else Except.ok v) with
      | error e => rw [hu] at h; cases h
      | ok v2 =>
          rw [hu] at h
          cases hr : unifyIntoFields rest gs with
          | error e => rw [hr] at h; cases h
          | ok rest2 =>
              rw [hr] at h
              cases h
              by_cases hk : k' = k
              · subst hk
                rw [hg] at hu
                simp only [Bool.false_eq_true, if_false, Except.ok.injEq] at hu
                subst hu
                simp [findField, hasKey]
              · simp [findField, hasKey, hk, ih rest2 hr]

theorem unifyV_struct_shape (b : CVal) (gs : List (String × CVal)) (b2 : CVal)
    (h : unifyV b (.struct gs) = .ok b2) :
    ∃ fs merged, b = .struct fs ∧ unifyIntoFields fs gs = .ok merged ∧
      b2 = .struct (merged ++ gs.filter (fun kv => !hasKey fs kv.1)) := by
  cases b with
  | struct fs =>
      simp only [unifyV] at h
      cases hm : unifyIntoFields fs gs with
      | error e => rw [hm] at h; cases h
      | ok merged =>
          rw [hm] at h
          cases h
          exact ⟨fs, merged, rfl, hm, rfl⟩
  | bottom => simp [unifyV, cvalEq] at h
  | null => simp [unifyV, cvalEq] at h
  | str s => simp [unifyV, cvalEq] at h
  | int n => simp [unifyV, cvalEq] at h
  | bool bb => simp [unifyV, cvalEq] at h
  | list xs => simp [unifyV, cvalEq] at h

/-- Frame property of unification: a successfully patched workload is
unchanged at every field the patch does not mention. -/
theorem unifyV_frame (b : CVal) (gs : List (String × CVal)) (b2 : CVal)
    (h : unifyV b (.struct gs) = .ok b2) (k : String) (hk : hasKey gs k = false) :
    b2.lookupField k = b.lookupField k := by
  obtain ⟨fs, merged, hb, hm, hb2⟩ := unifyV_struct_shape b gs b2 h
  subst hb hb2
  obtain ⟨hfind, hkey⟩ := unifyIntoFields_frame fs gs k hk merged hm
  simp only [CVal.lookupField]
  rw [findField_append]
  by_cases hf : hasKey fs k = true
  · simp [hkey, hf, hfind]
  · simp only [Bool.not_eq_true] at hf
    rw [hkey, hf]
    simp only [Bool.false_eq_true, if_false]
    rw [findField_eq_bottom_of_not_hasKey _ _ hf,
      findField_eq_bottom_of_not_hasKey _ _ (hasKey_filter_false _ _ _ hk)]

/-! ## C3 — trait patch semantics -/

/-- C3: with a `patch` field in the compiled trait document, `Complete`
on a context with no primary workload returns the "patch trait ... into
an invalid workload" error naming the trait; on a context with a
workload, the patch unifies into it and every field the patch does not
mention is unchanged. -/
theorem traitComplete_patch (name : String) (val : CVal) (st : PContext)
    (hpatch : (val.lookupField "patch").Exists = true) :
    (st.base = none →
      (traitCompletePost name val st).2 =
        some ("patch trait " ++ name ++ " into an invalid workload"))
    ∧ (∀ b gs b2, st.base = some b → val.lookupField "patch" = .struct gs →
        unifyV b (.struct gs) = .ok b2 →
        (traitCompletePost name val st).1.base = some b2
        ∧ ∀ k, hasKey gs k = false → b2.lookupField k = b.lookupField k) := by
  constructor
  · intro hb
    unfold traitCompletePost
    simp only [hpatch, if_true, extractTraitOutputs_base, hb]
  · intro b gs b2 hb hgs hu
    refine ⟨?_, fun k hk => unifyV_frame b gs b2 hu k hk⟩
    have hu2 : unifyV b (val.lookupField "patch") = .ok b2 := by rw [hgs]; exact hu
    unfold traitCompletePost
    simp only [hpatch, if_true, extractTraitOutputs_base, hb, hu2, traitAfterPatch_base]

/-- Witness for C3: the missing-workload error at `exNoBaseSt`, and at
`exTraitSt` the patch `{x: 1}` joins the base `{y: 2}` leaving `y`
untouched. -/
theorem traitComplete_patch_witness :
    ((exPatchOnlyVal.lookupField "patch").Exists = true
      ∧ exNoBaseSt.base = none
      ∧ (traitCompletePost "scaler" exPatchOnlyVal exNoBaseSt).2 =
          some ("patch trait " ++ "scaler" ++ " into an invalid workload"))
    ∧ ((exPatchOnlyVal.lookupField "patch").Exists = true
      ∧ exTraitSt.base = some (.struct [("y", .int 2)])
      ∧ exPatchOnlyVal.lookupField "patch" = .struct [("x", .int 1)]
      ∧ unifyV (.struct [("y", .int 2)]) (.struct [("x", .int 1)]) =
          .ok (.struct [("y", .int 2), ("x", .int 1)])
      ∧ (traitCompletePost "scaler" exPatchOnlyVal exTraitSt).1.base =
          some (.struct [("y", .int 2), ("x", .int 1)])
      ∧ hasKey [("x", CVal.int 1)] "y" = false
      ∧ (CVal.struct [("y", .int 2), ("x", .int 1)]).lookupField "y" =
          (CVal.struct [("y", .int 2)]).lookupField "y") :=
  ⟨⟨rfl, rfl, (traitComplete_patch "scaler" exPatchOnlyVal exNoBaseSt rfl).1 rfl⟩,
   ⟨rfl, rfl, rfl, rfl,
    ((traitComplete_patch "scaler" exPatchOnlyVal exTraitSt rfl).2
      (.struct [("y", .int 2)]) [("x", .int 1)]
      (.struct [("y", .int 2), ("x", .int 1)]) rfl rfl rfl).1,
    rfl,
    ((traitComplete_patch "scaler" exPatchOnlyVal exTraitSt rfl).2
      (.struct [("y", .int 2)]) [("x", .int 1)]
      (.struct [("y", .int 2), ("x", .int 1)]) rfl rfl rfl).2 "y" rfl⟩⟩

/-! ## C8 — what a failed trait render leaves behind -/

/-- C8 counterexample: the trait's patch `{x: 1}` unifies cleanly into
the base `{y: 2}`, then the `errs` list raises "boom" — `Complete`
returns an error, yet the previously resolved base workload now carries
the patch, so it is *not* unchanged. -/
theorem traitComplete_error_base_changed_counterexample :
    (traitCompletePost "t" exTraitErrsVal exTraitSt).2 = some "boom"
    ∧ (traitCompletePost "t" exTraitErrsVal exTraitSt).1.base ≠ exTraitSt.base := by
  refine ⟨rfl, ?_⟩
  show some (CVal.struct [("y", .int 2), ("x", .int 1)]) ≠
    some (CVal.struct [("y", .int 2)])
  simp

/-- C8 as amended: an error raised at or before patch application
leaves the base untouched — a trait without a patch never moves it, the
missing-workload error leaves it, and patch unification is
transactional (a failed unification leaves the base as it was) — but
once the patch has unified, the base keeps the unified value even when
a later stage (`patchOutputs`, `errs`) makes `Complete` return an
error. -/
theorem traitComplete_base_frame (name : String) (val : CVal) (st : PContext) :
    ((val.lookupField "patch").Exists = false →
      (traitCompletePost name val st).1.base = st.base)
    ∧ ((val.lookupField "patch").Exists = true → st.base = none →
      (traitCompletePost name val st).1.base = st.base
      ∧ (traitCompletePost name val st).2 =
          some ("patch trait " ++ name ++ " into an invalid workload"))
    ∧ (∀ b e, (val.lookupField "patch").Exists = true → st.base = some b →
      unifyV b (val.lookupField "patch") = .error e →
      (traitCompletePost name val st).1.base = some b
      ∧ (traitCompletePost name val st).2 =
          some ("invalid patch trait " ++ name ++ " into workload"))
    ∧ (∀ b b2, (val.lookupField "patch").Exists = true → st.base = some b →
      unifyV b (val.lookupField "patch") = .ok b2 →
      (traitCompletePost name val st).1.base = some b2) := by
  refine ⟨?_, ?_, ?_, ?_⟩
  · intro hpatch
    unfold traitCompletePost
    simp only [hpatch, Bool.false_eq_true, if_false, traitAfterPatch_base,
      extractTraitOutputs_base]
  · intro hpatch hb
    unfold traitCompletePost
    simp only [hpatch, if_true, extractTraitOutputs_base, hb]
    exact ⟨by trivial, by trivial⟩
  · intro b e hpatch hb hu
    unfold traitCompletePost
    simp only [hpatch, if_true, extractTraitOutputs_base, hb, hu]
    exact ⟨by trivial, by trivial⟩
  · intro b b2 hpatch hb hu
    unfold traitCompletePost
    simp only [hpatch, if_true, extractTraitOutputs_base, hb, hu, traitAfterPatch_base]

/-- Witness for C8's amended theorem: the conflicting patch `{y: 3}`
against base `{y: 2}` fails to unify, `Complete` errors, and the base
is exactly as before. -/
theorem traitComplete_base_frame_witness :
    (exConflictPatchVal.lookupField "patch").Exists = true
    ∧ exTraitSt.base = some (.struct [("y", .int 2)])
    ∧ unifyV (.struct [("y", .int 2)]) (exConflictPatchVal.lookupField "patch") =
        .error "conflicting values"
    ∧ (traitCompletePost "t" exConflictPatchVal exTraitSt).1.base =
        some (.struct [("y", .int 2)])
    ∧ (traitCompletePost "t" exConflictPatchVal exTraitSt).2 =
        some ("invalid patch trait " ++ "t" ++ " into workload") :=
  ⟨rfl, rfl, rfl,
   ((traitComplete_base_frame "t" exConflictPatchVal exTraitSt).2.2.1
      (.struct [("y", .int 2)]) "conflicting values" rfl rfl rfl).1,
   ((traitComplete_base_frame "t" exConflictPatchVal exTraitSt).2.2.1
      (.struct [("y", .int 2)]) "conflicting values" rfl rfl rfl).2⟩

/-! ## C10 — parseErrors -/

theorem parseErrors_eq_spec (v : CVal) : parseErrors v = specParseErrors v := by
  cases v with
  | list xs =>
      simp only [parseErrors, specParseErrors]
      induction xs with
      | nil => rfl
      | cons x rest ih =>
          cases x with
          | str s =>
              by_cases h : s = ""
              · subst h
                simpa [parseErrors.firstNonEmptyStr] using ih
              · simp [parseErrors.firstNonEmptyStr, h]
          | bottom => simpa [parseErrors.firstNonEmptyStr] using ih
          | null => simpa [parseErrors.firstNonEmptyStr] using ih
          | int n => simpa [parseErrors.firstNonEmptyStr] using ih
          | bool b => simpa [parseErrors.firstNonEmptyStr] using ih
          | struct fs => simpa [parseErrors.firstNonEmptyStr] using ih
          | list ys => simpa [parseErrors.firstNonEmptyStr] using ih
  | bottom => rfl
  | null => rfl
  | str s => rfl
  | int n => rfl
  | bool b => rfl
  | struct fs => rfl

/-- C10: `parseErrors` returns an error exactly when `errs` is a list
containing a non-empty string; the error is the first non-empty string
in list order (non-strings and empty strings are skipped), and a
non-list, an empty list, or a list of only empty strings yields no
error. -/
theorem parseErrors_first_nonEmpty_string (v : CVal) :
    parseErrors v = specParseErrors v
    ∧ ((parseErrors v).isSome ↔ ∃ xs s, v = .list xs ∧ CVal.str s ∈ xs ∧ s ≠ "") := by
  refine ⟨parseErrors_eq_spec v, ?_⟩
  rw [parseErrors_eq_spec v]
  cases v with
  | list xs =>
      simp only [specParseErrors, List.find?_isSome, List.mem_filterMap, CVal.list.injEq]
      constructor
      · rintro ⟨s, ⟨a, ha, hfa⟩, hs⟩
        cases a with
        | str t =>
            simp only [Option.some.injEq] at hfa
            subst hfa
            exact ⟨xs, t, rfl, ha, by simpa using hs⟩
        | bottom => simp at hfa
        | null => simp at hfa
        | int n => simp at hfa
        | bool b => simp at hfa
        | struct gs => simp at hfa
        | list ys => simp at hfa
      · rintro ⟨xs', s, hxs, hmem, hs⟩
        subst hxs
        exact ⟨s, ⟨.str s, hmem, rfl⟩, by simpa using hs⟩
  | bottom => simp [specParseErrors]
  | null => simp [specParseErrors]
  | str s => simp [specParseErrors]
  | int n => simp [specParseErrors]
  | bool b => simp [specParseErrors]
  | struct fs => simp [specParseErrors]

/-! ## C4 — config reference validation -/

/-- C4 counterexample: a config entry whose `name` value is the integer
`5` — not a string — is not rejected: the conversion error is
discarded, the reader runs with the empty name, and resolution
succeeds, where the claim demands a hard error tagged with the entry's
key. -/
theorem configNonStringName_counterexample :
    getConfigFromCueVal exReadConfig "db" exBadNameCfg =
      .ok [("ns", .str "ns1"), ("name", .str "")] := rfl

/-- C4 as amended: `getConfigFromCueVal` returns a hard error naming
the entry's key for a missing `name` field, and the raw conversion
error (not tagged with the key) for a non-string `namespace`, and the
`GetConfiguration` entry loop aborts the configuration layer at the
first such error; but a non-string `name` is silently tolerated (its
conversion error is discarded and the reader is invoked with the empty
name), and no config error ever fails the whole render: `Render`
discards GetConfiguration's error, interpolating the zero-value layer
(`config, _ :=`), `ComponentDataRenderer.Render` discards each entry's
error, fills `null` and continues with the remaining entries, and the
other claim-cited `GetConfiguration` variant silently skips an entry
with no `name` field. -/
theorem configEntry_resolution
    (rc : String → String → Except String (List (String × CVal)))
    (key : String) (config : CVal) :
    ((config.lookupField "name").Exists = false →
      getConfigFromCueVal rc key config =
        .error ("Invalid configuration provided in field `config." ++ key ++
          "`. Must specify `name` field."))
    ∧ ((config.lookupField "name").Exists = true →
      (config.lookupField "namespace").Exists = true →
      asString (config.lookupField "namespace") = none →
      getConfigFromCueVal rc key config = .error "cannot use value as string")
    ∧ ((config.lookupField "name").Exists = true →
      asString (config.lookupField "name") = none →
      (config.lookupField "namespace").Exists = false →
      getConfigFromCueVal rc key config = rc systemDefinitionNamespace "")
    ∧ (∀ rest e, getConfigFromCueVal rc key config = .error e →
      getConfigurationEntries rc ((key, config) :: rest) = .error e)
    ∧ (∀ entries e, getConfigurationEntries rc entries = .error e →
      renderConfigBinding rc entries = [])
    ∧ (∀ doc rest e, getConfigFromCueVal rc key config = .error e →
      dataRenderConfigLoop rc ((key, config) :: rest) doc =
        dataRenderConfigLoop rc rest
          (doc.fillPath ["$config", key, "output"] .null))
    ∧ (∀ rest, (config.lookupField "name").Exists = false →
      getConfigurationSkipping rc ((key, config) :: rest) =
        getConfigurationSkipping rc rest) := by
  refine ⟨?_, ?_, ?_, ?_, ?_, ?_, ?_⟩
  · intro h
    simp [getConfigFromCueVal, h]
  · intro hname hns hbad
    simp [getConfigFromCueVal, hname, hns, hbad]
  · intro hname hbad hns
    simp [getConfigFromCueVal, hname, hbad, hns]
  · intro rest e h
    simp [getConfigurationEntries, h]
  · intro entries e h
    simp [renderConfigBinding, h]
  · intro doc rest e h
    simp [dataRenderConfigLoop, h]
  · intro rest h
    have hb : config.lookupField "name" = .bottom := exists_eq_bottom _ h
    simp [getConfigurationSkipping, hb]

/-- Witness for C4's amended theorem at concrete entries: no name, a
non-string namespace, a non-string name, and — for the no-name entry —
the layer abort, the render-level discards (the zero-value layer, the
data-render loop continuing past the entry with `null` filled), and
the skipping GetConfiguration variant dropping the entry. -/
theorem configEntry_resolution_witness :
    ((exNoNameCfg.lookupField "name").Exists = false
      ∧ getConfigFromCueVal exReadConfig "db" exNoNameCfg =
          .error ("Invalid configuration provided in field `config." ++ "db" ++
            "`. Must specify `name` field."))
    ∧ ((exBadNsCfg.lookupField "name").Exists = true
      ∧ (exBadNsCfg.lookupField "namespace").Exists = true
      ∧ asString (exBadNsCfg.lookupField "namespace") = none
      ∧ getConfigFromCueVal exReadConfig "db" exBadNsCfg =
          .error "cannot use value as string")
    ∧ ((exBadNameOnlyCfg.lookupField "name").Exists = true
      ∧ asString (exBadNameOnlyCfg.lookupField "name") = none
      ∧ (exBadNameOnlyCfg.lookupField "namespace").Exists = false
      ∧ getConfigFromCueVal exReadConfig "db" exBadNameOnlyCfg =
          exReadConfig systemDefinitionNamespace "")
    ∧ (getConfigFromCueVal exReadConfig "db" exNoNameCfg = .error
        ("Invalid configuration provided in field `config." ++ "db" ++
          "`. Must specify `name` field.") →
      getConfigurationEntries exReadConfig [("db", exNoNameCfg)] = .error
        ("Invalid configuration provided in field `config." ++ "db" ++
          "`. Must specify `name` field."))
    ∧ renderConfigBinding exReadConfig [("db", exNoNameCfg)] = []
    ∧ dataRenderConfigLoop exReadConfig [("db", exNoNameCfg)] (CVal.struct []) =
        dataRenderConfigLoop exReadConfig []
          ((CVal.struct []).fillPath ["$config", "db", "output"] .null)
    ∧ getConfigurationSkipping exReadConfig [("db", exNoNameCfg)] =
        getConfigurationSkipping exReadConfig [] :=
  ⟨⟨rfl, (configEntry_resolution exReadConfig "db" exNoNameCfg).1 rfl⟩,
   ⟨rfl, rfl, rfl, (configEntry_resolution exReadConfig "db" exBadNsCfg).2.1 rfl rfl rfl⟩,
   ⟨rfl, rfl, rfl,
    (configEntry_resolution exReadConfig "db" exBadNameOnlyCfg).2.2.1 rfl rfl rfl⟩,
   fun h => (configEntry_resolution exReadConfig "db" exNoNameCfg).2.2.2.1 [] _ h,
   (configEntry_resolution exReadConfig "db" exNoNameCfg).2.2.2.2.1
     [("db", exNoNameCfg)] _ rfl,
   (configEntry_resolution exReadConfig "db" exNoNameCfg).2.2.2.2.2.1
     (CVal.struct []) [] _ rfl,
   (configEntry_resolution exReadConfig "db" exNoNameCfg).2.2.2.2.2.2 [] rfl⟩

/-! ## C5 — `$returns` extraction -/

/-- C5: when the data reference names a registered provider and an
existing function whose call succeeds, `getDataFromCue` returns the
result's `$returns` field when it exists, and the empty value with no
error when the result exposes no `$returns`. -/
theorem getDataFromCue_returns
    (providers : List (String × (String → Option (CVal → Except String CVal))))
    (key ps fs : String) (data result : CVal)
    (p : String → Option (CVal → Except String CVal))
    (fn : CVal → Except String CVal)
    (hprov : data.lookupField "provider" = .str ps)
    (hfn : data.lookupField "function" = .str fs)
    (hreg : getDataFromCue.findIn providers ps = some p)
    (hpfn : p fs = some fn)
    (hcall : fn (dataWithParams data) = .ok result) :
    ((result.lookupField "$returns").Exists = true →
      getDataFromCue providers key data = .ok (result.lookupField "$returns"))
    ∧ ((result.lookupField "$returns").Exists = false →
      getDataFromCue providers key data = .ok .bottom) := by
  constructor <;> intro h <;>
    simp [getDataFromCue, hprov, hfn, exists_str, asString, hreg, hpfn, hcall, h]

/-- Witness for C5 at the example registry: function `f` resolves to
the `$returns` value, function `g` (no `$returns`) to the empty value
without error. -/
theorem getDataFromCue_returns_witness :
    (exDataRef.lookupField "provider" = .str "p"
      ∧ exDataRef.lookupField "function" = .str "f"
      ∧ getDataFromCue.findIn exProviders "p" = some exProviderP
      ∧ exProviderP "f" = some exProviderFnReturns
      ∧ exProviderFnReturns (dataWithParams exDataRef) =
          .ok (.struct [("$returns", .str "resolved")])
      ∧ ((CVal.struct [("$returns", .str "resolved")]).lookupField "$returns").Exists = true
      ∧ getDataFromCue exProviders "d" exDataRef = .ok (.str "resolved"))
    ∧ (exDataRefBare.lookupField "provider" = .str "p"
      ∧ exDataRefBare.lookupField "function" = .str "g"
      ∧ exProviderP "g" = some exProviderFnBare
      ∧ exProviderFnBare (dataWithParams exDataRefBare) =
          .ok (.struct [("other", .str "x")])
      ∧ ((CVal.struct [("other", .str "x")]).lookupField "$returns").Exists = false
      ∧ getDataFromCue exProviders "d" exDataRefBare = .ok .bottom) :=
  ⟨⟨rfl, rfl, rfl, rfl, rfl, rfl,
    (getDataFromCue_returns exProviders "d" "p" "f" exDataRef
      (.struct [("$returns", .str "resolved")]) exProviderP exProviderFnReturns
      rfl rfl rfl rfl rfl).1 rfl⟩,
   ⟨rfl, rfl, rfl, rfl, rfl,
    (getDataFromCue_returns exProviders "d" "p" "g" exDataRefBare
      (.struct [("other", .str "x")]) exProviderP exProviderFnBare
      rfl rfl rfl rfl rfl).2 rfl⟩⟩

/-! ## C9 — reserved names never reach the custom-fields layer -/

theorem hasKey_filter_of_pred_false (fs : List (String × CVal)) (p : String → Bool)
    (k : String) (h : p k = false) :
    hasKey (fs.filter (fun kv => p kv.1)) k = false := by
  induction fs with
  | nil => rfl
  | cons kv rest ih =>
      obtain ⟨k', v⟩ := kv
      by_cases hk : k' = k
      · subst hk
        simp [List.filter, h, hasKey, ih]
      · by_cases hp : p k' = true
        · simp [List.filter, hp, hasKey, hk, ih]
        · simp only [Bool.not_eq_true] at hp
          simp [List.filter, hp, ih]

theorem hasKey_filter_of_pred_true (fs : List (String × CVal)) (p : String → Bool)
    (k : String) (h : p k = true) :
    hasKey (fs.filter (fun kv => p kv.1)) k = hasKey fs k := by
  induction fs with
  | nil => rfl
  | cons kv rest ih =>
      obtain ⟨k', v⟩ := kv
      by_cases hk : k' = k
      · subst hk
        simp [List.filter, h, hasKey, ih]
      · by_cases hp : p k' = true
        · simp [List.filter, hp, hasKey, hk, ih]
        · simp only [Bool.not_eq_true] at hp
          simp [List.filter, hp, hasKey, hk, ih]

theorem findField_filter_of_pred_true (fs : List (String × CVal)) (p : String → Bool)
    (k : String) (h : p k = true) :
    findField (fs.filter (fun kv => p kv.1)) k = findField fs k := by
  induction fs with
  | nil => rfl
  | cons kv rest ih =>
      obtain ⟨k', v⟩ := kv
      by_cases hk : k' = k
      · subst hk
        simp [List.filter, h, findField, ih]
      · by_cases hp : p k' = true
        · simp [List.filter, hp, findField, hk, ih]
        · simp only [Bool.not_eq_true] at hp
          simp [List.filter, hp, findField, hk, ih]

/-- C9: the custom-fields layer built by `GetFields` never carries a
field with a reserved name (`output`, `outputs`, `parameter`,
`context`, `config`), and every other top-level field of the definition
is carried into it with its value. -/
theorem getFields_reserved (fs : List (String × CVal)) (k : String) :
    (hasKey (getFields (.struct fs)) k = true → reservedNames.contains k = false)
    ∧ (reservedNames.contains k = false →
      hasKey (getFields (.struct fs)) k = hasKey fs k
      ∧ findField (getFields (.struct fs)) k = findField fs k) := by
  constructor
  · intro h
    by_contra hres
    simp only [Bool.not_eq_false] at hres
    have hkf : hasKey (getFields (.struct fs)) k = false :=
      hasKey_filter_of_pred_false fs (fun s => !reservedNames.contains s) k
        (by simpa using hres)
    rw [h] at hkf
    cases hkf
  · intro hres
    have h1 : hasKey (getFields (.struct fs)) k = hasKey fs k :=
      hasKey_filter_of_pred_true fs (fun s => !reservedNames.contains s) k
        (by simpa using hres)
    have h2 : findField (getFields (.struct fs)) k = findField fs k :=
      findField_filter_of_pred_true fs (fun s => !reservedNames.contains s) k
        (by simpa using hres)
    exact ⟨h1, h2⟩

/-- Witness for C9 at a concrete definition document: the custom field
`helper` is carried (so it is not reserved), and the non-reserved
`mount` keeps its presence and value, while the document's reserved
fields are checked absent from the layer. -/
theorem getFields_reserved_witness :
    (hasKey (getFields exTemplateDoc) "helper" = true
      ∧ reservedNames.contains "helper" = false)
    ∧ (reservedNames.contains "mount" = false
      ∧ hasKey (getFields exTemplateDoc) "mount" =
          hasKey [("output", CVal.struct [("kind", .str "ConfigMap")]),
            ("helper", .str "custom"), ("parameter", .struct [("name", .str "demo")]),
            ("config", .struct []), ("mount", .struct [("path", .str "/data")])] "mount"
      ∧ findField (getFields exTemplateDoc) "mount" =
          findField [("output", CVal.struct [("kind", .str "ConfigMap")]),
            ("helper", .str "custom"), ("parameter", .struct [("name", .str "demo")]),
            ("config", .struct []), ("mount", .struct [("path", .str "/data")])] "mount")
    ∧ hasKey (getFields exTemplateDoc) "output" = false
    ∧ hasKey (getFields exTemplateDoc) "parameter" = false
    ∧ hasKey (getFields exTemplateDoc) "config" = false :=
  ⟨⟨rfl, (getFields_reserved [("output", CVal.struct [("kind", .str "ConfigMap")]),
      ("helper", .str "custom"), ("parameter", .struct [("name", .str "demo")]),
      ("config", .struct []), ("mount", .struct [("path", .str "/data")])] "helper").1 rfl⟩,
   ⟨rfl, (getFields_reserved [("output", CVal.struct [("kind", .str "ConfigMap")]),
      ("helper", .str "custom"), ("parameter", .struct [("name", .str "demo")]),
      ("config", .struct []), ("mount", .struct [("path", .str "/data")])] "mount").2 rfl⟩,
   rfl, rfl, rfl⟩

/-! ## C6 — diagnostic grouping infrastructure -/

theorem groupOf_addEntry_same (g : Groups) (ps m em : String) :
    groupOf (addEntry g ps m em) ps = bumpEntry (groupOf g ps) m em := by
  induction g with
  | nil => simp [addEntry, groupOf, bumpEntry]
  | cons kv rest ih =>
      obtain ⟨k, es⟩ := kv
      by_cases h : k = ps
      · subst h
        simp [addEntry, groupOf]
      · simp [addEntry, groupOf, h, ih]

theorem groupOf_addEntry_other (g : Groups) (ps ps' m em : String) (h : ps' ≠ ps) :
    groupOf (addEntry g ps m em) ps' = groupOf g ps' := by
  induction g with
  | nil => simp [addEntry, groupOf, Ne.symm h]
  | cons kv rest ih =>
      obtain ⟨k, es⟩ := kv
      by_cases hk : k = ps
      · subst hk
        simp [addEntry, groupOf, Ne.symm h, ih]
      · simp [addEntry, groupOf, hk, ih]

theorem countP_bumpEntry_same (es : List GEntry) (m em : String) :
    (bumpEntry es m em).countP (fun e => decide (e.rawMsg = m)) =
      max (es.countP (fun e => decide (e.rawMsg = m))) 1 := by
  induction es with
  | nil => simp [bumpEntry, List.countP_cons]
  | cons e rest ih =>
      by_cases h : e.rawMsg = m
      · simp [bumpEntry, h, List.countP_cons]
      · simp only [bumpEntry, if_neg h, List.countP_cons, h, decide_eq_true_eq, if_false,
          ih]
        omega

theorem countP_bumpEntry_other (es : List GEntry) (m m' em : String) (h : m' ≠ m) :
    (bumpEntry es m em).countP (fun e => decide (e.rawMsg = m')) =
      es.countP (fun e => decide (e.rawMsg = m')) := by
  induction es with
  | nil => simp [bumpEntry, List.countP_cons, Ne.symm h]
  | cons e rest ih =>
      by_cases hm : e.rawMsg = m
      · simp [bumpEntry, hm, List.countP_cons, Ne.symm h]
      · simp [bumpEntry, hm, List.countP_cons, ih]

theorem sumCounts_bumpEntry_same (es : List GEntry) (m em : String) :
    (((bumpEntry es m em).filter (fun e => decide (e.rawMsg = m))).map GEntry.count).sum =
      ((es.filter (fun e => decide (e.rawMsg = m))).map GEntry.count).sum + 1 := by
  induction es with
  | nil => simp [bumpEntry, List.filter_cons]
  | cons e rest ih =>
      by_cases h : e.rawMsg = m
      · simp [bumpEntry, h, List.filter_cons]
        omega
      · simp [bumpEntry, h, List.filter_cons, ih]

theorem sumCounts_bumpEntry_other (es : List GEntry) (m m' em : String) (h : m' ≠ m) :
    (((bumpEntry es m em).filter (fun e => decide (e.rawMsg = m'))).map GEntry.count).sum =
      ((es.filter (fun e => decide (e.rawMsg = m'))).map GEntry.count).sum := by
  induction es with
  | nil => simp [bumpEntry, List.filter_cons, Ne.symm h]
  | cons e rest ih =>
      by_cases hm : e.rawMsg = m
      · have hm2 : ¬(e.rawMsg = m') := by rw [hm]; exact Ne.symm h
        simp [bumpEntry, hm, List.filter_cons, hm2, Ne.symm h]
      · by_cases hm2 : e.rawMsg = m'
        · simp [bumpEntry, hm, List.filter_cons, hm2, h, ih]
        · simp [bumpEntry, hm, List.filter_cons, hm2, h, ih]

theorem countIn_addEntry (g : Groups) (ps' m' em ps m : String) :
    countIn (addEntry g ps' m' em) ps m =
      countIn g ps m + (if ps' = ps ∧ m' = m then 1 else 0) := by
  by_cases hps : ps' = ps
  · subst hps
    by_cases hm : m' = m
    · subst hm
      simp only [countIn, groupOf_addEntry_same, sumCounts_bumpEntry_same, and_self,
        if_true]
    · simp only [countIn, groupOf_addEntry_same,
        sumCounts_bumpEntry_other _ _ _ _ (Ne.symm hm), hm, and_false, if_false,
        Nat.add_zero]
  · simp only [countIn, groupOf_addEntry_other _ _ _ _ _ (Ne.symm hps), hps, false_and,
      if_false, Nat.add_zero]

theorem numEntries_addEntry (g : Groups) (ps' m' em ps m : String) :
    numEntries (addEntry g ps' m' em) ps m =
      if ps' = ps ∧ m' = m then max (numEntries g ps m) 1 else numEntries g ps m := by
  by_cases hps : ps' = ps
  · subst hps
    by_cases hm : m' = m
    · subst hm
      simp only [numEntries, groupOf_addEntry_same, countP_bumpEntry_same, and_self,
        if_true]
    · simp only [numEntries, groupOf_addEntry_same,
        countP_bumpEntry_other _ _ _ _ (Ne.symm hm), hm, and_false, if_false]
  · simp only [numEntries, groupOf_addEntry_other _ _ _ _ _ (Ne.symm hps), hps, false_and,
      if_false]

theorem countIn_foldl (enrich : List String → String → String) (errs : List RawErr) :
    ∀ g ps m, isDisjunctionSummary m = false →
      countIn (errs.foldl (groupErrorsStep enrich) g) ps m =
        countIn g ps m + occurrences errs ps m := by
  induction errs with
  | nil =>
      intro g ps m hm
      simp [occurrences]
  | cons e rest ih =>
      intro g ps m hm
      simp only [List.foldl_cons]
      by_cases hd : isDisjunctionSummary e.msg = true
      · have hpred : decide (pathStrOf e.path = ps ∧ e.msg = m) = false := by
          by_cases hmsg : e.msg = m
          · rw [hmsg] at hd
            rw [hd] at hm
            cases hm
          · simp [hmsg]
        simp only [groupErrorsStep, if_pos hd]
        rw [ih g ps m hm]
        simp only [occurrences, List.countP_cons, hpred, Bool.false_eq_true, if_false,
          Nat.add_zero]
      · simp only [Bool.not_eq_true] at hd
        simp only [groupErrorsStep, hd, Bool.false_eq_true, if_false]
        rw [ih _ ps m hm, countIn_addEntry]
        simp only [occurrences, List.countP_cons, decide_eq_true_eq]
        by_cases hp : pathStrOf e.path = ps ∧ e.msg = m
        · simp only [hp, if_true]
          omega
        · simp only [hp, if_false]
          omega

theorem numEntries_foldl (enrich : List String → String → String) (errs : List RawErr) :
    ∀ g ps m, isDisjunctionSummary m = false →
      numEntries (errs.foldl (groupErrorsStep enrich) g) ps m =
        max (numEntries g ps m) (min 1 (occurrences errs ps m)) := by
  induction errs with
  | nil =>
      intro g ps m hm
      simp [occurrences]
  | cons e rest ih =>
      intro g ps m hm
      simp only [List.foldl_cons]
      by_cases hd : isDisjunctionSummary e.msg = true
      · have hpred : decide (pathStrOf e.path = ps ∧ e.msg = m) = false := by
          by_cases hmsg : e.msg = m
          · rw [hmsg] at hd
            rw [hd] at hm
            cases hm
          · simp [hmsg]
        simp only [groupErrorsStep, if_pos hd]
        rw [ih g ps m hm]
        simp only [occurrences, List.countP_cons, hpred, Bool.false_eq_true, if_false,
          Nat.add_zero]
      · simp only [Bool.not_eq_true] at hd
        simp only [groupErrorsStep, hd, Bool.false_eq_true, if_false]
        rw [ih _ ps m hm, numEntries_addEntry]
        simp only [occurrences, List.countP_cons, decide_eq_true_eq]
        by_cases hp : pathStrOf e.path = ps ∧ e.msg = m
        · simp only [hp, and_self, if_true]
          omega
        · simp only [hp, if_false]
          omega

theorem insKey_cons (k ps : String) (acc : List String) (h : k ≠ ps) :
    insKey (k :: acc) ps = k :: insKey acc ps := by
  by_cases hmem : ps ∈ acc
  · simp [insKey, hmem, Ne.symm h]
  · simp [insKey, hmem, Ne.symm h]

theorem mapFst_addEntry (g : Groups) (ps m em : String) :
    (addEntry g ps m em).map Prod.fst = insKey (g.map Prod.fst) ps := by
  induction g with
  | nil => simp [addEntry, insKey]
  | cons kv rest ih =>
      obtain ⟨k, es⟩ := kv
      by_cases h : k = ps
      · subst h
        simp [addEntry, insKey]
      · simp only [addEntry, if_neg h, List.map_cons, ih]
        rw [insKey_cons _ _ _ h]

theorem mapFst_foldl (enrich : List String → String → String) (errs : List RawErr) :
    ∀ g, (errs.foldl (groupErrorsStep enrich) g).map Prod.fst =
      (visiblePaths errs).foldl insKey (g.map Prod.fst) := by
  induction errs with
  | nil =>
      intro g
      simp [visiblePaths]
  | cons e rest ih =>
      intro g
      simp only [List.foldl_cons, visiblePaths, List.filter_cons]
      by_cases hd : isDisjunctionSummary e.msg = true
      · simp only [groupErrorsStep, if_pos hd, hd, Bool.not_true, Bool.false_eq_true,
          if_false]
        exact ih g
      · simp only [Bool.not_eq_true] at hd
        simp only [groupErrorsStep, hd, Bool.false_eq_true, if_false, Bool.not_false,
          if_true, List.map_cons, List.foldl_cons]
        rw [ih _, mapFst_addEntry]
        simp only [visiblePaths]

/-- C6 as amended: for every (path, message) pair whose message is not
a disjunction summary, N occurrences collapse into exactly one entry of
the path's group (never N entries) whose occurrence count is N; path
groups appear in first-seen order; and the formatter returns a non-nil
report for every non-nil input.  Messages containing "errors in empty
disjunction" are skipped entirely and produce no entry. -/
theorem formatErrors_grouping (enrich : List String → String → String)
    (errs : List RawErr) (ps m contextStr : String)
    (hm : isDisjunctionSummary m = false) :
    (numEntries (groupErrors enrich errs) ps m =
      if occurrences errs ps m = 0 then 0 else 1)
    ∧ countIn (groupErrors enrich errs) ps m = occurrences errs ps m
    ∧ (groupErrors enrich errs).map Prod.fst = firstSeen (visiblePaths errs)
    ∧ (formatCueValidationErrors enrich (some errs) contextStr).isSome = true := by
  refine ⟨?_, ?_, ?_, rfl⟩
  · rw [groupErrors, numEntries_foldl enrich errs [] ps m hm]
    have h0 : numEntries [] ps m = 0 := rfl
    rw [h0]
    by_cases hocc : occurrences errs ps m = 0
    · simp [hocc]
    · simp only [hocc, if_false]
      omega
  · rw [groupErrors, countIn_foldl enrich errs [] ps m hm]
    have h0 : countIn [] ps m = 0 := rfl
    rw [h0]
    omega
  · rw [groupErrors, mapFst_foldl enrich errs []]
    rfl

/-- Witness for C6's amended theorem: two identical plain diagnostics
produce one entry with count 2, under the single path group. -/
theorem formatErrors_grouping_witness :
    isDisjunctionSummary exPlainErr.msg = false
    ∧ (numEntries (groupErrors (fun _ m => m) [exPlainErr, exPlainErr])
        "parameter.image" exPlainErr.msg =
        if occurrences [exPlainErr, exPlainErr] "parameter.image" exPlainErr.msg = 0
        then 0 else 1)
    ∧ countIn (groupErrors (fun _ m => m) [exPlainErr, exPlainErr])
        "parameter.image" exPlainErr.msg =
        occurrences [exPlainErr, exPlainErr] "parameter.image" exPlainErr.msg
    ∧ (groupErrors (fun _ m => m) [exPlainErr, exPlainErr]).map Prod.fst =
        firstSeen (visiblePaths [exPlainErr, exPlainErr])
    ∧ (formatCueValidationErrors (fun _ m => m) (some [exPlainErr, exPlainErr])
        "workload demo").isSome = true :=
  ⟨rfl,
   formatErrors_grouping (fun _ m => m) [exPlainErr, exPlainErr] "parameter.image"
     exPlainErr.msg "workload demo" rfl⟩

/-- C6 counterexample: the pair `((root), "2 errors in empty
disjunction:")` occurs once among the raw errors, yet the formatter
produces no entry at all for it — it is skipped as a disjunction
summary — where the claim demands exactly one entry with count 1. -/
theorem formatErrors_disjunction_skip_counterexample :
    occurrences [exDisjErr] "(root)" exDisjErr.msg = 1
    ∧ numEntries (groupErrors (fun _ m => m) [exDisjErr]) "(root)" exDisjErr.msg = 0
    ∧ countIn (groupErrors (fun _ m => m) [exDisjErr]) "(root)" exDisjErr.msg = 0 :=
  ⟨rfl, rfl, rfl⟩

end KubeVela
